import Mathlib

/-!
Shallow embedding of the policy data store of this repository
(`src/app/policy.service.ts`, class `PolicyService`, together with the
form component `PolicyFormComponent` that guards calls into it).

Modelling notes, all taken from the source:

* An `InsurancePolicy` record carries the fields listed in the persisted
  layout: `id`, `policyNumber`, `customerName`, `startDate`, `endDate`,
  `premiumAmount`.  Dates are carried as strings exactly as in the code;
  `premiumAmount` is carried as an integer-valued number — no operation of
  the service ever computes with it, it is only stored and copied.
* The persistence medium (`localStorage`) holds two entries,
  `insurance_policies` (a JSON array of records) and
  `insurance_policies_next_id` (a decimal string).  The medium is modelled
  as the two entries in parsed form (`Option (List InsurancePolicy)` and
  `Option Nat`): `JSON.parse (JSON.stringify ps) = ps` for plain records
  and `Number.parseInt (n.toString (), 10) = n` for a natural number are
  contracts of the JavaScript library functions, so serialising is
  modelled as storing the value itself and an absent key as `none`.
* The service keeps the signal `policiesSignal` and the field `nextId`.
  The constructor registers an Angular `effect` that re-runs
  `saveToLocalStorage` whenever `policiesSignal` changes.  Angular effects
  run asynchronously, after the mutating method has returned: every
  mutator below is therefore the method body followed by one effect flush
  (`saveToLocalStorage` of the resulting in-memory state).  Each mutator
  writes a fresh array into the signal, so the effect is scheduled on
  every call.
-/

structure InsurancePolicy where
  id : Nat
  policyNumber : String
  customerName : String
  startDate : String
  endDate : String
  premiumAmount : Int
  deriving Repr, DecidableEq

/-- The two string-keyed entries of the persistence medium, in parsed form:
`policiesEntry` is the content of key `insurance_policies`, `nextIdEntry`
the content of key `insurance_policies_next_id`; `none` means the key is
absent. -/
structure Storage where
  policiesEntry : Option (List InsurancePolicy)
  nextIdEntry : Option Nat
  deriving Repr, DecidableEq

/-- In-memory state of a `PolicyService` instance plus the medium it is
attached to: the signal `policiesSignal`, the private field `nextId`, and
the `localStorage` contents. -/
structure ServiceState where
  policiesSignal : List InsurancePolicy
  nextId : Nat
  storage : Storage
  deriving Repr, DecidableEq

namespace PolicyService

/-- Method `saveToLocalStorage`: writes the serialized collection under the
policies key and `nextId.toString()` under the next-id key. -/
def saveToLocalStorage (s : ServiceState) : ServiceState :=
  { s with storage := { policiesEntry := some s.policiesSignal, nextIdEntry := some s.nextId } }

/-- Method `loadFromLocalStorage`: reads both keys; a present policies entry is
parsed and written into the signal, a present next-id entry is parsed into
`nextId`; an absent key leaves the corresponding default untouched. -/
def loadFromLocalStorage (s : ServiceState) : ServiceState :=
  let s1 := match s.storage.policiesEntry with
    | some ps => { s with policiesSignal := ps }
    | none => s
  match s.storage.nextIdEntry with
    | some n => { s1 with nextId := n }
    | none => s1

/-- Field initializers of a fresh instance: empty signal, `nextId = 1`,
attached to the given medium. -/
def initialFields (st : Storage) : ServiceState :=
  { policiesSignal := [], nextId := 1, storage := st }

/-- The constructor: field initializers, then `loadFromLocalStorage`, then
the registered auto-save effect runs once (effects execute once at
creation). -/
def newService (st : Storage) : ServiceState :=
  saveToLocalStorage (loadFromLocalStorage (initialFields st))

/-- Method `getAll`: the current value of the signal. -/
def getAll (s : ServiceState) : List InsurancePolicy :=
  s.policiesSignal

/-- Method `getById`: `find(p => p.id === id)`. -/
def getById (i : Nat) (s : ServiceState) : Option InsurancePolicy :=
  s.policiesSignal.find? (fun p => p.id = i)

/-- Method `add`: `policy.id = this.nextId++`, then the signal is updated to
`[...policies, {...policy}]`; the auto-save effect then flushes. -/
def add (policy : InsurancePolicy) (s : ServiceState) : ServiceState :=
  saveToLocalStorage
    { s with
      policiesSignal := s.policiesSignal ++ [{ policy with id := s.nextId }]
      nextId := s.nextId + 1 }

/-- Method `update`: the signal is updated to
`policies.map(p => p.id === policy.id ? {...policy} : p)`; the auto-save
effect then flushes. -/
def update (policy : InsurancePolicy) (s : ServiceState) : ServiceState :=
  saveToLocalStorage
    { s with
      policiesSignal := s.policiesSignal.map (fun p => if p.id = policy.id then policy else p) }

/-- Method `delete`: the signal is updated to `policies.filter(p => p.id !== id)`;
the auto-save effect then flushes. -/
def delete (i : Nat) (s : ServiceState) : ServiceState :=
  saveToLocalStorage
    { s with policiesSignal := s.policiesSignal.filter (fun p => p.id ≠ i) }

/-- The body of `clear` before the scheduled effect runs: the signal is set
to `[]`, `nextId` to `1`, and both keys are removed from the medium. -/
def clearBody (s : ServiceState) : ServiceState :=
  { s with
    policiesSignal := []
    nextId := 1
    storage := { policiesEntry := none, nextIdEntry := none } }

/-- Method `clear` as observable after the tick: setting the signal schedules the
auto-save effect, which re-runs `saveToLocalStorage` after the method body
(including the two `removeItem` calls) has completed. -/
def clear (s : ServiceState) : ServiceState :=
  saveToLocalStorage (clearBody s)

end PolicyService

/-- One call into the mutating surface of the store, for reasoning about
call sequences. -/
inductive Op where
  | addOp (p : InsurancePolicy)
  | updateOp (p : InsurancePolicy)
  | deleteOp (i : Nat)
  | clearOp
  deriving Repr, DecidableEq

/-- Apply one call. -/
def applyOp (s : ServiceState) : Op → ServiceState
  | Op.addOp p => PolicyService.add p s
  | Op.updateOp p => PolicyService.update p s
  | Op.deleteOp i => PolicyService.delete i s
  | Op.clearOp => PolicyService.clear s

/-- Run a sequence of calls left to right. -/
def runOps (s : ServiceState) (ops : List Op) : ServiceState :=
  ops.foldl applyOp s

/-- The ids handed out by the successive `add` calls of a sequence, in
order (each `add` assigns the current `nextId` of the state it runs in). -/
def addTrace (s : ServiceState) : List Op → List Nat
  | [] => []
  | Op.addOp p :: rest => s.nextId :: addTrace (PolicyService.add p s) rest
  | Op.updateOp p :: rest => addTrace (PolicyService.update p s) rest
  | Op.deleteOp i :: rest => addTrace (PolicyService.delete i s) rest
  | Op.clearOp :: rest => addTrace (PolicyService.clear s) rest

/-- The ids currently held in the collection. -/
def idsOf (s : ServiceState) : List Nat :=
  s.policiesSignal.map (fun p => p.id)

/-- The store invariant: the collection's ids are pairwise distinct and
every id is below the allocator counter. -/
def StoreInv (s : ServiceState) : Prop :=
  (idsOf s).Nodup ∧ ∀ p ∈ s.policiesSignal, p.id < s.nextId

/-- The initial store state: a fresh instance over an empty medium. -/
def initialStore : ServiceState :=
  PolicyService.newService { policiesEntry := none, nextIdEntry := none }

/-- A sample record, as in spec scenario 1. -/
def samplePolicy : InsurancePolicy :=
  { id := 0, policyNumber := "POL-001", customerName := "John Doe",
    startDate := "2024-01-01", endDate := "2024-12-31", premiumAmount := 1500 }

/-- A record with an empty required field (`policyNumber`). -/
def invalidPolicy : InsurancePolicy :=
  { samplePolicy with policyNumber := "" }

/-- Component `PolicyFormComponent`: the reactive form marks itself invalid when any
control with `Validators.required` holds an empty value; the four string
controls are empty exactly when they hold `""` (the numeric
`premiumAmount` control is initialized to `0` and never empty). -/
def formValid (p : InsurancePolicy) : Bool :=
  p.policyNumber ≠ "" && p.customerName ≠ "" && p.startDate ≠ "" && p.endDate ≠ ""

/-- Method `PolicyFormComponent.save`: returns without touching the store when the
form is invalid, otherwise calls `update` in edit mode and `add` otherwise. -/
def formSave (isEdit : Bool) (p : InsurancePolicy) (s : ServiceState) : ServiceState :=
  if formValid p then
    (if isEdit then PolicyService.update p s else PolicyService.add p s)
  else s

example : (PolicyService.add samplePolicy initialStore).policiesSignal
    = [{ samplePolicy with id := 1 }] := by decide

example : initialStore.nextId = 1 ∧ initialStore.policiesSignal = [] := by decide

/-- C4: `add` assigns the current counter value as the new record's id
(whatever id the caller supplied is overwritten and never used), appends
the record at the end of the collection, and increments the counter by
one. -/
theorem add_assigns_appends_increments (p : InsurancePolicy) (k : Nat) (s : ServiceState) :
    PolicyService.getAll (PolicyService.add p s)
      = PolicyService.getAll s ++ [{ p with id := s.nextId }]
    ∧ (PolicyService.add p s).nextId = s.nextId + 1
    ∧ PolicyService.add { p with id := k } s = PolicyService.add p s :=
  ⟨rfl, rfl, rfl⟩

/-- C9: calling `clear` twice in immediate succession produces exactly the
same store state (collection, counter and persisted entries) as calling it
once: the empty collection with counter `1`. -/
theorem clear_idempotent (s : ServiceState) :
    PolicyService.clear (PolicyService.clear s) = PolicyService.clear s
    ∧ (PolicyService.clear s).policiesSignal = []
    ∧ (PolicyService.clear s).nextId = 1 :=
  ⟨rfl, rfl, rfl⟩

/-- C5 counterexample: after `clear` on a store holding one record, the
policies key is not absent from the medium — the auto-save effect
scheduled by setting the signal re-writes both keys after `clear`'s
`removeItem` calls have run. -/
theorem clear_leaves_keys_present :
    (PolicyService.clear (PolicyService.add samplePolicy initialStore)).storage.policiesEntry
      ≠ none := by
  decide

/-- C5 amended: after `clear` the collection is empty and the counter is
`1`; the method body removes both persisted keys, but the auto-save effect
then re-writes them, so once the tick completes a read finds the
serialized empty collection and the counter value `1`, not absent keys. -/
theorem clear_spec (s : ServiceState) :
    (PolicyService.clear s).policiesSignal = []
    ∧ (PolicyService.clear s).nextId = 1
    ∧ (PolicyService.clearBody s).storage = { policiesEntry := none, nextIdEntry := none }
    ∧ (PolicyService.clear s).storage = { policiesEntry := some [], nextIdEntry := some 1 } :=
  ⟨rfl, rfl, rfl, rfl⟩

/-- C2: saving any collection and counter to the medium and constructing a
fresh service instance over that medium yields the same collection (same
records, same order) and the same counter value. -/
theorem save_load_roundtrip (ps : List InsurancePolicy) (n : Nat) (st : Storage) :
    (PolicyService.newService (PolicyService.saveToLocalStorage ⟨ps, n, st⟩).storage).policiesSignal
      = ps
    ∧ (PolicyService.newService (PolicyService.saveToLocalStorage ⟨ps, n, st⟩).storage).nextId
      = n :=
  ⟨rfl, rfl⟩

/-- C10: on initialization the counter is the parsed next-id entry when
that key is present and stays at its default `1` otherwise — it is never
recomputed from the loaded ids; concretely, over a medium holding one
record with id `1` but no next-id key, a fresh instance has a non-empty
collection and counter `1`, and its next `add` hands out the already
present id `1`. -/
theorem nextId_not_recomputed (st : Storage) :
    (PolicyService.newService st).nextId = st.nextIdEntry.getD 1
    ∧ (PolicyService.newService
        { policiesEntry := some [{ samplePolicy with id := 1 }],
          nextIdEntry := none }).policiesSignal ≠ []
    ∧ (PolicyService.newService
        { policiesEntry := some [{ samplePolicy with id := 1 }],
          nextIdEntry := none }).nextId = 1
    ∧ ¬ ((PolicyService.add samplePolicy
          (PolicyService.newService
            { policiesEntry := some [{ samplePolicy with id := 1 }],
              nextIdEntry := none })).policiesSignal.map (fun p => p.id)).Nodup := by
  refine ⟨?_, by decide, by decide, by decide⟩
  obtain ⟨pe, ne⟩ := st
  cases pe <;> cases ne <;> rfl

/-- C7 counterexample: `add` called directly with a record whose required
`policyNumber` is empty does not fail — the record is inserted into the
collection. -/
theorem add_inserts_invalid_record :
    (PolicyService.add invalidPolicy initialStore).policiesSignal
      = [{ invalidPolicy with id := 1 }] := by
  decide

/-- C7 amended: the store performs no validation — `add` inserts a record
with an empty required string field like any other; the empty-field check
lives in the UI form, whose `save` refuses to call the store when a
required control is empty. -/
theorem add_no_validation (p : InsurancePolicy) (s : ServiceState)
    (h : p.policyNumber = "" ∨ p.customerName = "") :
    (PolicyService.add p s).policiesSignal = s.policiesSignal ++ [{ p with id := s.nextId }]
    ∧ formSave false p s = s := by
  refine ⟨rfl, ?_⟩
  rcases h with h | h <;> simp [formSave, formValid, h]

/-- C6: with an id absent from the collection, `update` with a record
bearing that id and `delete` with that id leave the collection (and the
counter) unchanged and raise no error, and `getById` with that id returns
`none` — it is pure and has no effect on the store state. -/
theorem notfound_noop (s : ServiceState) (q : InsurancePolicy) (i : Nat)
    (hq : q.id = i) (h : ∀ p ∈ s.policiesSignal, p.id ≠ i) :
    (PolicyService.update q s).policiesSignal = s.policiesSignal
    ∧ (PolicyService.delete i s).policiesSignal = s.policiesSignal
    ∧ (PolicyService.update q s).nextId = s.nextId
    ∧ (PolicyService.delete i s).nextId = s.nextId
    ∧ PolicyService.getById i s = none := by
  subst hq
  refine ⟨?_, ?_, rfl, rfl, ?_⟩
  · show s.policiesSignal.map (fun p => if p.id = q.id then q else p) = s.policiesSignal
    have : ∀ p ∈ s.policiesSignal, (if p.id = q.id then q else p) = p := by
      intro p hp
      simp [h p hp]
    rw [List.map_congr_left this, List.map_id']
  · show s.policiesSignal.filter (fun p => p.id ≠ q.id) = s.policiesSignal
    rw [List.filter_eq_self]
    intro p hp
    simpa using h p hp
  · rw [PolicyService.getById, List.find?_eq_none]
    intro p hp
    simpa using h p hp

/-- Witness for `notfound_noop`: id `99` is absent from the initial store. -/
theorem notfound_noop_witness :
    ({ samplePolicy with id := 99 } : InsurancePolicy).id = 99
    ∧ (∀ p ∈ initialStore.policiesSignal, p.id ≠ 99)
    ∧ ((PolicyService.update { samplePolicy with id := 99 } initialStore).policiesSignal
        = initialStore.policiesSignal
      ∧ (PolicyService.delete 99 initialStore).policiesSignal = initialStore.policiesSignal
      ∧ (PolicyService.update { samplePolicy with id := 99 } initialStore).nextId
        = initialStore.nextId
      ∧ (PolicyService.delete 99 initialStore).nextId = initialStore.nextId
      ∧ PolicyService.getById 99 initialStore = none) :=
  ⟨rfl, by decide, notfound_noop initialStore { samplePolicy with id := 99 } 99 rfl (by decide)⟩

/-- C8: when the supplied record's id is present in the collection (whose
ids are distinct, as in every reachable state), `update` replaces the
whole stored record carrying that id with the supplied record, leaves
every other record unchanged, and preserves the order of the collection. -/
theorem update_frame (q r : InsurancePolicy) (l1 l2 : List InsurancePolicy)
    (s : ServiceState)
    (hs : s.policiesSignal = l1 ++ r :: l2)
    (hid : r.id = q.id)
    (hnodup : (s.policiesSignal.map (fun p => p.id)).Nodup) :
    (PolicyService.update q s).policiesSignal = l1 ++ q :: l2
    ∧ (PolicyService.update q s).nextId = s.nextId := by
  rw [hs] at hnodup
  simp only [List.map_append, List.map_cons, List.nodup_append, List.nodup_cons] at hnodup
  obtain ⟨-, ⟨hr2, -⟩, hdisj⟩ := hnodup
  refine ⟨?_, rfl⟩
  show (s.policiesSignal.map (fun p => if p.id = q.id then q else p)) = l1 ++ q :: l2
  rw [hs, List.map_append, List.map_cons, if_pos hid]
  have h1 : l1.map (fun p => if p.id = q.id then q else p) = l1 := by
    have : ∀ p ∈ l1, (if p.id = q.id then q else p) = p := by
      intro p hp
      have : p.id ≠ r.id := by
        intro hpr
        exact hdisj (List.mem_map_of_mem (fun p => p.id) hp) (by simp [hpr])
      simp [hid ▸ this]
    rw [List.map_congr_left this, List.map_id']
  have h2 : l2.map (fun p => if p.id = q.id then q else p) = l2 := by
    have : ∀ p ∈ l2, (if p.id = q.id then q else p) = p := by
      intro p hp
      have : p.id ≠ r.id := by
        intro hpr
        exact hr2 (hpr ▸ List.mem_map_of_mem (fun p => p.id) hp)
      simp [hid ▸ this]
    rw [List.map_congr_left this, List.map_id']
  rw [h1, h2]

/-- Witness for `update_frame`: replace the record with id `2` in a
two-record store. -/
theorem update_frame_witness :
    (⟨[{ samplePolicy with id := 1 }, { samplePolicy with id := 2 }], 3,
        some [{ samplePolicy with id := 1 }, { samplePolicy with id := 2 }], some 3⟩
        : ServiceState).policiesSignal
      = [{ samplePolicy with id := 1 }] ++ { samplePolicy with id := 2 } :: []
    ∧ ({ samplePolicy with id := 2 } : InsurancePolicy).id
      = ({ invalidPolicy with id := 2 } : InsurancePolicy).id
    ∧ ((⟨[{ samplePolicy with id := 1 }, { samplePolicy with id := 2 }], 3,
          some [{ samplePolicy with id := 1 }, { samplePolicy with id := 2 }], some 3⟩
          : ServiceState).policiesSignal.map (fun p => p.id)).Nodup
    ∧ ((PolicyService.update { invalidPolicy with id := 2 }
          (⟨[{ samplePolicy with id := 1 }, { samplePolicy with id := 2 }], 3,
            some [{ samplePolicy with id := 1 }, { samplePolicy with id := 2 }], some 3⟩
            : ServiceState)).policiesSignal
        = [{ samplePolicy with id := 1 }] ++ { invalidPolicy with id := 2 } :: []
      ∧ (PolicyService.update { invalidPolicy with id := 2 }
          (⟨[{ samplePolicy with id := 1 }, { samplePolicy with id := 2 }], 3,
            some [{ samplePolicy with id := 1 }, { samplePolicy with id := 2 }], some 3⟩
            : ServiceState)).nextId
        = (⟨[{ samplePolicy with id := 1 }, { samplePolicy with id := 2 }], 3,
            some [{ samplePolicy with id := 1 }, { samplePolicy with id := 2 }], some 3⟩
            : ServiceState).nextId) :=
  ⟨rfl, rfl, by decide,
    update_frame { invalidPolicy with id := 2 } { samplePolicy with id := 2 }
      [{ samplePolicy with id := 1 }] [] _ rfl rfl (by decide)⟩

/-- Witness for `add_no_validation` at a concrete invalid record. -/
theorem add_no_validation_witness :
    (invalidPolicy.policyNumber = "" ∨ invalidPolicy.customerName = "")
    ∧ ((PolicyService.add invalidPolicy initialStore).policiesSignal
        = initialStore.policiesSignal ++ [{ invalidPolicy with id := initialStore.nextId }]
      ∧ formSave false invalidPolicy initialStore = initialStore) :=
  ⟨Or.inl rfl, add_no_validation invalidPolicy initialStore (Or.inl rfl)⟩

lemma storeInv_applyOp (s : ServiceState) (o : Op) (h : StoreInv s) : StoreInv (applyOp s o) := by
  obtain ⟨hnd, hlt⟩ := h
  unfold idsOf at hnd
  cases o with
  | addOp p =>
    refine ⟨?_, ?_⟩
    · show ((s.policiesSignal ++ [{ p with id := s.nextId }]).map (fun r : InsurancePolicy => r.id)).Nodup
      rw [List.map_append, List.map_cons, List.map_nil, List.nodup_append]
      refine ⟨hnd, List.nodup_singleton _, ?_⟩
      intro a ha hb
      obtain ⟨p', hp', hid⟩ := List.mem_map.mp ha
      have hb' : a = ({ p with id := s.nextId } : InsurancePolicy).id := List.mem_singleton.mp hb
      have := hlt p' hp'
      rw [← hid] at hb'
      simp only at hb'
      omega
    · intro p' hp'
      show p'.id < s.nextId + 1
      rcases List.mem_append.mp hp' with h1 | h1
      · exact Nat.lt_succ_of_lt (hlt p' h1)
      · rw [List.mem_singleton.mp h1]
        exact Nat.lt_succ_self _
  | updateOp q =>
    have hids : (s.policiesSignal.map (fun r => if r.id = q.id then q else r)).map (fun r : InsurancePolicy => r.id)
        = s.policiesSignal.map (fun r : InsurancePolicy => r.id) := by
      rw [List.map_map]
      apply List.map_congr_left
      intro r _
      by_cases hc : r.id = q.id <;> simp [hc]
    refine ⟨?_, ?_⟩
    · show ((s.policiesSignal.map (fun r => if r.id = q.id then q else r)).map
          (fun r : InsurancePolicy => r.id)).Nodup
      rw [hids]; exact hnd
    · intro p' hp'
      obtain ⟨r, hr, hfr⟩ := List.mem_map.mp hp'
      show p'.id < s.nextId
      have hrid : p'.id = r.id := by
        rw [← hfr]
        by_cases hc : r.id = q.id <;> simp [hc]
      rw [hrid]
      exact hlt r hr
  | deleteOp i =>
    refine ⟨?_, ?_⟩
    · show ((s.policiesSignal.filter (fun r => r.id ≠ i)).map (fun r : InsurancePolicy => r.id)).Nodup
      have hsub : List.Sublist
          ((s.policiesSignal.filter (fun r => r.id ≠ i)).map (fun r : InsurancePolicy => r.id))
          (s.policiesSignal.map (fun r : InsurancePolicy => r.id)) :=
        (List.filter_sublist _).map _
      exact hsub.nodup hnd
    · intro p' hp'
      exact hlt p' (List.mem_of_mem_filter hp')
  | clearOp =>
    exact ⟨List.nodup_nil, by intro r hr; cases hr⟩

lemma storeInv_runOps (ops : List Op) (s : ServiceState) (h : StoreInv s) :
    StoreInv (runOps s ops) := by
  induction ops generalizing s with
  | nil => exact h
  | cons o rest ih => exact ih (applyOp s o) (storeInv_applyOp s o h)

lemma storeInv_initial : StoreInv initialStore :=
  ⟨List.nodup_nil, by intro p hp; cases hp⟩

/-- C3: every store state reachable from the initial state by a sequence
of `add`/`update`/`delete`/`clear` calls has pairwise distinct record ids
(in particular the ids produced by any sequence of `add` calls are
pairwise distinct). -/
theorem reachable_ids_nodup (ops : List Op) :
    ((runOps initialStore ops).policiesSignal.map (fun p => p.id)).Nodup :=
  (storeInv_runOps ops initialStore storeInv_initial).1

lemma nextId_le_addTrace (ops : List Op) (s : ServiceState) (h : Op.clearOp ∉ ops) :
    ∀ x ∈ addTrace s ops, s.nextId ≤ x := by
  induction ops generalizing s with
  | nil => intro x hx; cases hx
  | cons o rest ih =>
    have hrest : Op.clearOp ∉ rest := fun hr => h (List.mem_cons_of_mem _ hr)
    cases o with
    | addOp p =>
      intro x hx
      simp only [addTrace] at hx
      rcases List.mem_cons.mp hx with rfl | hx'
      · exact Nat.le_refl _
      · have := ih (PolicyService.add p s) hrest x hx'
        have hn : (PolicyService.add p s).nextId = s.nextId + 1 := rfl
        omega
    | updateOp p =>
      intro x hx
      simp only [addTrace] at hx
      exact ih (PolicyService.update p s) hrest x hx
    | deleteOp i =>
      intro x hx
      simp only [addTrace] at hx
      exact ih (PolicyService.delete i s) hrest x hx
    | clearOp =>
      exact absurd (List.mem_cons_self _ _) h

lemma addTrace_pairwise (ops : List Op) (s : ServiceState) (h : Op.clearOp ∉ ops) :
    (addTrace s ops).Pairwise (· < ·) := by
  induction ops generalizing s with
  | nil => exact List.Pairwise.nil
  | cons o rest ih =>
    have hrest : Op.clearOp ∉ rest := fun hr => h (List.mem_cons_of_mem _ hr)
    cases o with
    | addOp p =>
      simp only [addTrace]
      refine List.pairwise_cons.mpr ⟨?_, ih (PolicyService.add p s) hrest⟩
      intro x hx
      have hle := nextId_le_addTrace rest (PolicyService.add p s) hrest x hx
      have hn : (PolicyService.add p s).nextId = s.nextId + 1 := rfl
      omega
    | updateOp p =>
      simp only [addTrace]
      exact ih (PolicyService.update p s) hrest
    | deleteOp i =>
      simp only [addTrace]
      exact ih (PolicyService.delete i s) hrest
    | clearOp =>
      exact absurd (List.mem_cons_self _ _) h

/-- C1 counterexample: the sequence add, clear, add hands out the ids
`[1, 1]` — the second `add`'s id is not strictly greater than the first
one's, because the intervening `clear` resets the counter to `1`. -/
theorem monotonic_allocator_counterexample :
    addTrace initialStore [Op.addOp samplePolicy, Op.clearOp, Op.addOp samplePolicy] = [1, 1]
    ∧ ¬ (addTrace initialStore
          [Op.addOp samplePolicy, Op.clearOp, Op.addOp samplePolicy]).Pairwise (· < ·) := by
  constructor
  · decide
  · decide

/-- C1 amended: for every sequence of `add`/`update`/`delete` calls from
the initial state with no intervening `clear`, each `add`'s id is strictly
greater than every id handed out by an earlier `add` (deletes in between
do not break this); `clear` resets the allocator counter to `1` (so ids
can be reassigned after a `clear`). -/
theorem monotonic_allocator (ops : List Op) (h : Op.clearOp ∉ ops) :
    (addTrace initialStore ops).Pairwise (· < ·)
    ∧ ∀ s : ServiceState, (PolicyService.clear s).nextId = 1 :=
  ⟨addTrace_pairwise ops initialStore h, fun _ => rfl⟩

/-- Witness for `monotonic_allocator`: add, delete, add with no clear. -/
theorem monotonic_allocator_witness :
    Op.clearOp ∉ [Op.addOp samplePolicy, Op.deleteOp 1, Op.addOp samplePolicy]
    ∧ ((addTrace initialStore
          [Op.addOp samplePolicy, Op.deleteOp 1, Op.addOp samplePolicy]).Pairwise (· < ·)
      ∧ ∀ s : ServiceState, (PolicyService.clear s).nextId = 1) :=
  ⟨by decide, monotonic_allocator _ (by decide)⟩
